import Mathlib

/-!
Shallow embedding of the URL-shortener core of the repository:
the Mongoose model in src/models/Url.js (schema defaults, pre-save hooks,
incrementClick, findByCode, getPopularUrls) and the Express controller in
src/controllers (createShortUrl, redirectToOriginal, updateUrl, deleteUrl),
together with the Redis cache operations from src/config/redis.js.

Timestamps are abstract Nat values (epoch milliseconds).  The calendar
boundaries the source computes from the wall clock (start of the current day,
week and month in incrementClick) are carried in a Clock record, since the
embedding treats time as opaque ticks.  JavaScript truthiness of optional
strings and dates is modelled explicitly where the source relies on it.
-/

namespace Shortener

/-- One geoStats array element of the Url schema. -/
structure GeoStat where
  country : String
  countryCode : String
  city : String
  region : String
  clicks : Nat
deriving DecidableEq, Repr

/-- One deviceStats array element of the Url schema. -/
structure DeviceStat where
  browser : String
  os : String
  device : String
  clicks : Nat
deriving DecidableEq, Repr

/-- One referrerStats array element of the Url schema.  The domain is absent
when the referrer string had no third slash-separated component. -/
structure ReferrerStat where
  referrer : String
  domain : Option String
  clicks : Nat
deriving DecidableEq, Repr

/-- One dailyClicks array element: a day-normalised date and its count. -/
structure DailyClick where
  date : Nat
  clicks : Nat
deriving DecidableEq, Repr

/-- The analytics sub-record of the Url schema. -/
structure Analytics where
  totalClicks : Nat
  uniqueClicks : Nat
  lastClickedAt : Option Nat
  clicksToday : Nat
  clicksThisWeek : Nat
  clicksThisMonth : Nat
deriving DecidableEq, Repr

/-- A Url document.  Fields of the schema that none of the embedded
operations read or write (metadata, tags, category, qrCode, malwareCheck,
utmParameters, notes, bulkId, shortUrl) are omitted. -/
structure Url where
  id : Nat
  originalUrl : String
  shortCode : String
  customAlias : Option String
  password : Option String
  expiresAt : Option Nat
  isExpired : Bool
  isActive : Bool
  isPublic : Bool
  analytics : Analytics
  geoStats : List GeoStat
  deviceStats : List DeviceStat
  referrerStats : List ReferrerStat
  dailyClicks : List DailyClick
  createdAt : Nat
deriving DecidableEq, Repr

/-- The clickData argument of incrementClick. -/
structure GeoInfo where
  country : String
  countryCode : String
  city : String
  region : String
deriving DecidableEq, Repr

structure DeviceInfo where
  browser : String
  os : String
  device : String
deriving DecidableEq, Repr

structure ClickData where
  isUnique : Bool
  geo : Option GeoInfo
  device : Option DeviceInfo
  referrer : Option String
deriving DecidableEq, Repr

/-- The wall clock at one operation: the current instant together with the
calendar boundaries the source derives from it (setHours(0,0,0,0), start of
week, first of month). -/
structure Clock where
  now : Nat
  today : Nat
  weekStart : Nat
  monthStart : Nat
deriving DecidableEq, Repr

/-- The value cached under url:code — the projection written by
createShortUrl and by the cache-miss refill in redirectToOriginal.  Only the
refill writes the _id field; creation leaves it absent. -/
structure CacheEntry where
  originalUrl : String
  password : Option String
  isActive : Bool
  expiresAt : Option Nat
  idOpt : Option Nat
deriving DecidableEq, Repr

/-- A sendErrorResponse payload: HTTP status and message. -/
structure ErrResp where
  status : Nat
  message : String
deriving DecidableEq, Repr

/-- The shared mutable state: the Mongo collection of Url documents and the
Redis cache as an association list keyed by the cache key string. -/
structure SysState where
  db : List Url
  cache : List (String × CacheEntry)
deriving DecidableEq, Repr

/-- cacheOperations.set: stores the value under the key, replacing any
previous entry. -/
def cacheSet (m : List (String × CacheEntry)) (k : String) (v : CacheEntry) :
    List (String × CacheEntry) :=
  (k, v) :: m.filter (fun p => p.1 != k)

/-- cacheOperations.get. -/
def cacheGet (m : List (String × CacheEntry)) (k : String) : Option CacheEntry :=
  (m.find? (fun p => p.1 == k)).map Prod.snd

/-- cacheOperations.del. -/
def cacheDel (m : List (String × CacheEntry)) (k : String) : List (String × CacheEntry) :=
  m.filter (fun p => p.1 != k)

/-- The key url:code used by the controller for every cache access. -/
def cacheKey (code : String) : String := "url:" ++ code

/-- JavaScript truthiness of an optional date: a Date object is truthy, null
and undefined are falsy. -/
def dateTruthy : Option Nat → Bool
  | some _ => true
  | none => false

/-- The expiry comparison new Date() > expiresAt, guarded by truthiness of
expiresAt as the source writes it. -/
def dateExceeded (expiresAt : Option Nat) (now : Nat) : Bool :=
  match expiresAt with
  | some e => decide (e < now)
  | none => false

/-- The guard urlData.password && urlData.password !== password: the stored
password must be truthy (a non-empty string) and differ from the supplied
one for access to be blocked. -/
def passwordBlocks (stored supplied : Option String) : Bool :=
  match stored with
  | none => false
  | some p => !(p == "") && !(supplied == some p)

/-- The pre-save expiration hook of the Url schema: a document whose
expiresAt has passed is marked expired and deactivated at save time.  The
other pre-save hooks only fill shortCode, shortUrl and metadata.domain,
which the create model below sets directly. -/
def applySaveHooks (u : Url) (clk : Clock) : Url :=
  if dateExceeded u.expiresAt clk.now then
    { u with isExpired := true, isActive := false }
  else u

/-- select false on the password path: query results omit the password
field.  Modelled by clearing it on documents returned from queries. -/
def stripPassword (u : Url) : Url := { u with password := none }

/-- Url.findByCode: findOne on shortCode or customAlias equal to the code,
restricted to isActive true.  The password field is absent from the result
because the schema declares it select false. -/
def findByCode (db : List Url) (code : String) : Option Url :=
  (db.find? (fun u =>
    (u.shortCode == code || u.customAlias == some code) && u.isActive)).map stripPassword

/-- The policy checks of redirectToOriginal in source order: active flag,
then expiry, then password, each short-circuiting. -/
def checkPolicy (e : CacheEntry) (pw : Option String) (clk : Clock) : Option ErrResp :=
  if !e.isActive then some { status := 404, message := "Short URL is not active" }
  else if dateExceeded e.expiresAt clk.now then
    some { status := 404, message := "Short URL has expired" }
  else if passwordBlocks e.password pw then
    some { status := 401, message := "Password required to access this URL" }
  else none

/-- The outcome of redirectToOriginal: the HTTP response, the state after the
call, and the _id handed to the asynchronous analytics update when one was
dispatched (the guard if urlData._id). -/
inductive RedirectResult where
  | redirect (status : Nat) (location : String)
  | error (status : Nat) (message : String)
deriving DecidableEq, Repr

structure ResolveOutcome where
  result : RedirectResult
  state : SysState
  dispatched : Option Nat
deriving DecidableEq, Repr

/-- Serving a cache entry: evaluate policy; on success redirect 301 and
dispatch analytics when the entry carries an _id. -/
def serveEntry (s : SysState) (e : CacheEntry) (pw : Option String) (clk : Clock) :
    ResolveOutcome :=
  match checkPolicy e pw clk with
  | some err => { result := .error err.status err.message, state := s, dispatched := none }
  | none => { result := .redirect 301 e.originalUrl, state := s, dispatched := e.idOpt }

/-- redirectToOriginal: cache lookup, store fallback via findByCode with
cache refill (the refill entry carries the _id), then the policy checks. -/
def redirectToOriginal (s : SysState) (code : String) (pw : Option String) (clk : Clock) :
    ResolveOutcome :=
  match cacheGet s.cache (cacheKey code) with
  | some e => serveEntry s e pw clk
  | none =>
    match findByCode s.db code with
    | none => { result := .error 404 "Short URL not found", state := s, dispatched := none }
    | some u =>
      let e : CacheEntry :=
        { originalUrl := u.originalUrl, password := u.password,
          isActive := u.isActive, expiresAt := u.expiresAt, idOpt := some u.id }
      serveEntry { s with cache := cacheSet s.cache (cacheKey code) e } e pw clk

/-! ### URL validation

The schema validator on originalUrl tests the anchored pattern
(https?://)? [0-9a-z.-]+ . [a-z.]replicated 2 to 6 [/A-Za-z0-9_ .-]star star /?
The matcher below decides membership in that language.  The inner starred
group iterated again matches the same strings as one star, the optional
trailing slash is already in the path class, and because the top-level
domain class is contained in the path class a match using 3 to 6 top-level
characters exists exactly when one using 2 exists, so only the first two
characters after the dot are constrained. -/

/-- Characters allowed before the mandatory dot. -/
def isHostChar (c : Char) : Bool :=
  c.isDigit || (c.isLower && c.isAlpha) || c == '.' || c == '-'

/-- Characters allowed in the 2-to-6 group after the dot. -/
def isTldChar (c : Char) : Bool :=
  (c.isLower && c.isAlpha) || c == '.'

/-- Characters allowed after the top-level group. -/
def isPathChar (c : Char) : Bool :=
  c == '/' || c.isAlpha || c.isDigit || c == '_' || c == ' ' || c == '.' || c == '-'

/-- After the dot: at least two top-level characters, then path characters. -/
def tailOk (rest : List Char) : Bool :=
  match rest with
  | c1 :: c2 :: rest2 => isTldChar c1 && isTldChar c2 && rest2.all isPathChar
  | _ => false

/-- Scans the host part; at each position either the mandatory dot begins the
tail or the host continues. -/
def hostScan : List Char → Bool
  | [] => false
  | c :: rest => (c == '.' && tailOk rest) || (isHostChar c && hostScan rest)

/-- The body after the optional scheme: a nonempty host, a dot, the tail. -/
def urlBody : List Char → Bool
  | [] => false
  | c :: rest => isHostChar c && hostScan rest

/-- The whole originalUrl validator of the Url schema. -/
def validUrl (s : String) : Bool :=
  let cs := s.toList
  urlBody cs
    || (cs.take 7 == "http://".toList && urlBody (cs.drop 7))
    || (cs.take 8 == "https://".toList && urlBody (cs.drop 8))

/-- The customAlias character class [A-Za-z0-9_-]. -/
def isAliasChar (c : Char) : Bool :=
  c.isAlpha || c.isDigit || c == '_' || c == '-'

/-! ### List helpers shared by the analytics updates -/

/-- Updates the first element satisfying the test, as Array.prototype.find
followed by an in-place mutation does; none when no element matches. -/
def updateFirstBy (p : α → Bool) (f : α → α) : List α → Option (List α)
  | [] => none
  | x :: xs =>
    if p x then some (f x :: xs)
    else (updateFirstBy p f xs).map (fun l => x :: l)

/-- find-and-increment or push, the pattern used for every breakdown list. -/
def bumpOrPush (p : α → Bool) (f : α → α) (mk : α) (l : List α) : List α :=
  match updateFirstBy p f l with
  | some l2 => l2
  | none => l ++ [mk]

/-- Insertion step of a stable sort, descending on the key: an element moves
before another only when its key is strictly larger, so equal keys keep
their relative order. -/
def insertDescBy (key : α → Nat) (x : α) : List α → List α
  | [] => [x]
  | y :: ys => if key y ≤ key x then x :: y :: ys else y :: insertDescBy key x ys

/-- Stable descending sort on a Nat key, modelling an array sort with the
comparator (a, b) => key b - key a and no secondary key. -/
def sortDescBy (key : α → Nat) : List α → List α
  | [] => []
  | x :: xs => insertDescBy key x (sortDescBy key xs)

/-! ### incrementClick -/

/-- The rolling-counter resets at the top of incrementClick: each counter is
zeroed when there is no last click or the last click predates the current
period boundary. -/
def resetRolling (a : Analytics) (clk : Clock) : Analytics :=
  let staleBefore := fun (bound : Nat) =>
    match a.lastClickedAt with
    | none => true
    | some t => decide (t < bound)
  { a with
    clicksToday := if staleBefore clk.today then 0 else a.clicksToday,
    clicksThisWeek := if staleBefore clk.weekStart then 0 else a.clicksThisWeek,
    clicksThisMonth := if staleBefore clk.monthStart then 0 else a.clicksThisMonth }

/-- The referrer domain extraction: the third slash-separated component when
the referrer contains a slash, else the referrer itself. -/
def referrerDomain (r : String) : Option String :=
  if (r.toList).contains '/' then (r.splitOn "/").get? 2 else some r

/-- The dailyClicks update: increment the entry for the current day when one
exists, else push a new entry; when the list then exceeds 30 entries, sort
descending by date and keep the first 30. -/
def addDailyClick (l : List DailyClick) (today : Nat) : List DailyClick :=
  match updateFirstBy (fun d => d.date == today) (fun d => { d with clicks := d.clicks + 1 }) l with
  | some l2 => l2
  | none =>
    let pushed := l ++ [{ date := today, clicks := 1 }]
    if 30 < pushed.length then (sortDescBy (fun d => d.date) pushed).take 30
    else pushed

/-- Url.incrementClick: resets the rolling counters, increments the
counters, updates the breakdown lists and dailyClicks, and saves the whole
document (running the pre-save hooks). -/
def incrementClick (u : Url) (cd : ClickData) (clk : Clock) : Url :=
  let a0 := resetRolling u.analytics clk
  let a1 : Analytics :=
    { totalClicks := a0.totalClicks + 1,
      uniqueClicks := if cd.isUnique then a0.uniqueClicks + 1 else a0.uniqueClicks,
      lastClickedAt := some clk.now,
      clicksToday := a0.clicksToday + 1,
      clicksThisWeek := a0.clicksThisWeek + 1,
      clicksThisMonth := a0.clicksThisMonth + 1 }
  let geo2 :=
    match cd.geo with
    | none => u.geoStats
    | some g =>
      bumpOrPush (fun st => st.country == g.country && st.city == g.city)
        (fun st => { st with clicks := st.clicks + 1 })
        { country := g.country, countryCode := g.countryCode,
          city := g.city, region := g.region, clicks := 1 } u.geoStats
  let dev2 :=
    match cd.device with
    | none => u.deviceStats
    | some d =>
      bumpOrPush (fun st => st.browser == d.browser && st.os == d.os)
        (fun st => { st with clicks := st.clicks + 1 })
        { browser := d.browser, os := d.os, device := d.device, clicks := 1 } u.deviceStats
  let ref2 :=
    match cd.referrer with
    | none => u.referrerStats
    | some r =>
      bumpOrPush (fun st => st.referrer == r)
        (fun st => { st with clicks := st.clicks + 1 })
        { referrer := r, domain := referrerDomain r, clicks := 1 } u.referrerStats
  let u1 : Url :=
    { u with
      analytics := a1
      geoStats := geo2
      deviceStats := dev2
      referrerStats := ref2
      dailyClicks := addDailyClick u.dailyClicks clk.today }
  applySaveHooks u1 clk

/-! ### Creation -/

/-- The request body of createShortUrl, restricted to the fields the
embedded operations read. -/
structure CreateReq where
  originalUrl : String
  customAlias : Option String
  password : Option String
  expiresAt : Option Nat
deriving DecidableEq, Repr

/-- Url.create: the pre-save hooks assign shortCode from the custom alias or
the freshly generated code, the schema validators check originalUrl,
shortCode length 4 to 20 and the customAlias charset and length 3 to 50, the
expiration hook deactivates an already-expired document, and the insert
enforces the unique indexes on shortCode and (sparse) customAlias.  The
document id is the collection size, and createdAt comes from the clock. -/
def urlCreate (db : List Url) (originalUrl : String) (customAlias : Option String)
    (password : Option String) (expiresAt : Option Nat) (genCode : String)
    (clk : Clock) : Except ErrResp (List Url × Url) :=
  let code := customAlias.getD genCode
  if !(validUrl originalUrl) then
    .error { status := 400, message := "Please provide a valid URL" }
  else if code.length < 4 || 20 < code.length then
    .error { status := 400, message := "Short code length out of range" }
  else if !(match customAlias with
            | none => true
            | some a => (a.toList).all isAliasChar
                && decide (3 ≤ a.length) && decide (a.length ≤ 50)) then
    .error { status := 400, message := "Custom alias invalid" }
  else if db.any (fun u => u.shortCode == code) then
    .error { status := 400, message := "Duplicate field value: shortCode" }
  else if (match customAlias with
           | none => false
           | some a => db.any (fun u => u.customAlias == some a)) then
    .error { status := 400, message := "Duplicate field value: customAlias" }
  else
    let u : Url :=
      applySaveHooks
        { id := db.length, originalUrl := originalUrl, shortCode := code,
          customAlias := customAlias, password := password, expiresAt := expiresAt,
          isExpired := false, isActive := true, isPublic := true,
          analytics := { totalClicks := 0, uniqueClicks := 0, lastClickedAt := none,
                         clicksToday := 0, clicksThisWeek := 0, clicksThisMonth := 0 },
          geoStats := [], deviceStats := [], referrerStats := [],
          dailyClicks := [], createdAt := clk.now } clk
    .ok (db ++ [u], u)

/-- createShortUrl: require originalUrl, reject a custom alias already
present as any shortCode or customAlias (no isActive filter on this
findOne), create the document, and cache the projection of the new document
without its _id under url:shortCode.  An empty-string password is coerced to
null by password || null. -/
def coercePassword : Option String → Option String
  | some p => if p == "" then none else some p
  | none => none

def createShortUrl (s : SysState) (req : CreateReq) (genCode : String) (clk : Clock) :
    Except ErrResp (SysState × Url) :=
  if req.originalUrl == "" then
    .error { status := 400, message := "Original URL is required" }
  else if (match req.customAlias with
           | none => false
           | some a => s.db.any (fun u => u.shortCode == a || u.customAlias == some a)) then
    .error { status := 400, message := "Custom alias already exists" }
  else
    match urlCreate s.db req.originalUrl req.customAlias (coercePassword req.password)
        req.expiresAt genCode clk with
    | .error e => .error e
    | .ok (db2, u) =>
      let entry : CacheEntry :=
        { originalUrl := u.originalUrl, password := u.password,
          isActive := u.isActive, expiresAt := u.expiresAt, idOpt := none }
      .ok ({ db := db2, cache := cacheSet s.cache (cacheKey u.shortCode) entry }, u)

/-! ### Update, delete, analytics dispatch -/

/-- The update body of updateUrl: an outer none means the field was absent
from the request (undefined) and is left untouched. -/
structure UpdateReq where
  password : Option (Option String)
  expiresAt : Option (Option Nat)
  isActive : Option Bool
deriving DecidableEq, Repr

/-- updateUrl: find the document by id, check ownership, assign the supplied
fields, save (running the pre-save hooks), then delete the cache entry for
its shortCode before responding. -/
def updateUrl (s : SysState) (id : Nat) (req : UpdateReq) (isOwner : Bool) (clk : Clock) :
    Except ErrResp (SysState × Url) :=
  match s.db.find? (fun u => u.id == id) with
  | none => .error { status := 404, message := "URL not found" }
  | some u =>
    if !isOwner then .error { status := 403, message := "Access denied" }
    else
      let u1 := match req.password with | some p => { u with password := p } | none => u
      let u2 := match req.expiresAt with | some e => { u1 with expiresAt := e } | none => u1
      let u3 := match req.isActive with | some b => { u2 with isActive := b } | none => u2
      let u4 := applySaveHooks u3 clk
      .ok ({ db := s.db.map (fun v => if v.id == id then u4 else v),
             cache := cacheDel s.cache (cacheKey u4.shortCode) }, u4)

/-- deleteUrl: find by id, check ownership, soft delete by setting isActive
false, save, then delete the cache entry before responding. -/
def deleteUrl (s : SysState) (id : Nat) (isOwner : Bool) (clk : Clock) :
    Except ErrResp SysState :=
  match s.db.find? (fun u => u.id == id) with
  | none => .error { status := 404, message := "URL not found" }
  | some u =>
    if !isOwner then .error { status := 403, message := "Access denied" }
    else
      let u1 := applySaveHooks { u with isActive := false } clk
      .ok { db := s.db.map (fun v => if v.id == id then u1 else v),
            cache := cacheDel s.cache (cacheKey u1.shortCode) }

/-- The asynchronous analytics update dispatched by redirectToOriginal:
findById then incrementClick on the loaded document; nothing happens when no
id was dispatched. -/
def runDispatch (s : SysState) (dispatched : Option Nat) (cd : ClickData) (clk : Clock) :
    SysState :=
  match dispatched with
  | none => s
  | some i =>
    match s.db.find? (fun u => u.id == i) with
    | none => s
    | some u =>
      { s with db := s.db.map (fun v => if v.id == i then incrementClick u cd clk else v) }

/-! ### Popularity ranking -/

inductive Timeframe where
  | all
  | today
  | week
  | month
deriving DecidableEq, Repr

def msPerDay : Nat := 86400000

/-- The createdAt window filter of getPopularUrls: start of the current day,
seven days back, or thirty days back. -/
def inTimeframe (tf : Timeframe) (clk : Clock) (u : Url) : Bool :=
  match tf with
  | .all => true
  | .today => decide (clk.today ≤ u.createdAt)
  | .week => decide (clk.now - 7 * msPerDay ≤ u.createdAt)
  | .month => decide (clk.now - 30 * msPerDay ≤ u.createdAt)

/-- Url.getPopularUrls: filter to public, active documents inside the
timeframe window on createdAt, sort by analytics.totalClicks descending with
no secondary key (ties keep the collection order), and take the limit. -/
def getPopularUrls (db : List Url) (limit : Nat) (tf : Timeframe) (clk : Clock) : List Url :=
  (sortDescBy (fun u => u.analytics.totalClicks)
    (db.filter (fun u => u.isPublic && u.isActive && inTimeframe tf clk u))).take limit

/-! ### Interleaving model of concurrent click recording

The analytics update on the redirect path loads the document with findById,
mutates it in memory and saves the whole document.  A schedule is a list of
read and write events of numbered clients; a read takes a snapshot of the
document, a write stores the incremented snapshot back, overwriting the
document. -/

inductive ClickEvent where
  | read (client : Nat)
  | write (client : Nat)
deriving DecidableEq, Repr

/-- One scheduler step over the document and the per-client snapshots. -/
def stepClick (cd : ClickData) (clk : Clock) :
    Url × List (Nat × Url) → ClickEvent → Url × List (Nat × Url)
  | (doc, snaps), .read c => (doc, (c, doc) :: snaps.filter (fun p => p.1 != c))
  | (doc, snaps), .write c =>
    match (snaps.find? (fun p => p.1 == c)).map Prod.snd with
    | some snap => (incrementClick snap cd clk, snaps)
    | none => (doc, snaps)

/-- Runs a schedule of concurrent click recordings against one document. -/
def runClickSchedule (doc : Url) (cd : ClickData) (clk : Clock)
    (evs : List ClickEvent) : Url :=
  (evs.foldl (stepClick cd clk) (doc, [])).1

/-- The fully serialised schedule: each client reads and writes before the
next starts. -/
def serialSchedule : Nat → List ClickEvent
  | 0 => []
  | n + 1 => serialSchedule n ++ [.read n, .write n]

/-! ### Concrete example data used by witnesses and counterexamples -/

def exClock : Clock :=
  { now := 1000000, today := 900000, weekStart := 800000, monthStart := 700000 }

/-- A plain active document with the given id, click total and creation
time, as the store would hold after a create followed by clicks. -/
def exampleUrl (i clicks created : Nat) : Url :=
  { id := i, originalUrl := "https://example.com/a",
    shortCode := "code" ++ toString i,
    customAlias := none, password := none, expiresAt := none,
    isExpired := false, isActive := true, isPublic := true,
    analytics := { totalClicks := clicks, uniqueClicks := 0, lastClickedAt := none,
                   clicksToday := 0, clicksThisWeek := 0, clicksThisMonth := 0 },
    geoStats := [], deviceStats := [], referrerStats := [],
    dailyClicks := [], createdAt := created }

def emptyState : SysState := { db := [], cache := [] }

def stateAfter (r : Except ErrResp (SysState × Url)) : SysState :=
  (r.toOption.map Prod.fst).getD emptyState

def urlAfter (r : Except ErrResp (SysState × Url)) : Url :=
  (r.toOption.map Prod.snd).getD (exampleUrl 0 0 0)

def exReqPlain : CreateReq :=
  { originalUrl := "https://example.com/a", customAlias := none,
    password := none, expiresAt := none }

def exReqPw : CreateReq :=
  { originalUrl := "https://example.com/a", customAlias := none,
    password := some "abc", expiresAt := none }

def exReqExp : CreateReq :=
  { originalUrl := "https://example.com/a", customAlias := none,
    password := none, expiresAt := some 500 }

def exReqDemo : CreateReq :=
  { originalUrl := "https://example.com/b", customAlias := some "demo",
    password := none, expiresAt := none }

/-- State after creating a plain link with generated code abcd12. -/
def exStPlain : SysState := stateAfter (createShortUrl emptyState exReqPlain "abcd12" exClock)

def exUrlPlain : Url := urlAfter (createShortUrl emptyState exReqPlain "abcd12" exClock)

/-- State after creating a password-protected link (password abc). -/
def exStPw : SysState := stateAfter (createShortUrl emptyState exReqPw "abcd12" exClock)

/-- State after creating a link whose expiresAt (500) is already in the past
of exClock.now (1000000). -/
def exStExp : SysState := stateAfter (createShortUrl emptyState exReqExp "abcd12" exClock)

/-- State after creating a link with custom alias demo. -/
def exStDemo : SysState := stateAfter (createShortUrl emptyState exReqDemo "qqqq12" exClock)

/-- A store holding one inactive document with short code dead123. -/
def exDbInactive : List Url :=
  [{ exampleUrl 0 7 100 with shortCode := "dead123", isActive := false }]

/-- Two public active documents with equal click totals; the first was
created earlier. -/
def exDbTie : List Url := [exampleUrl 0 5 100, exampleUrl 1 5 200]

def exCd : ClickData := { isUnique := true, geo := none, device := none, referrer := none }

def exFreshUrl : Url := exampleUrl 0 0 0

/-- The cache entry written by the plain creation example. -/
def exEntryPlain : CacheEntry :=
  (cacheGet exStPlain.cache (cacheKey "abcd12")).getD
    { originalUrl := "", password := none, isActive := true, expiresAt := none, idOpt := none }

/-- The document created by the expired-creation example. -/
def exUrlExp : Url := urlAfter (createShortUrl emptyState exReqExp "abcd12" exClock)

/-- A document with a full 30-entry daily-click history (dates 1 to 30). -/
def exFullUrl : Url :=
  { exampleUrl 0 0 0 with
    dailyClicks := (List.range 30).map (fun i => { date := i + 1, clicks := 1 }) }

/-! ## Shared helper lemmas -/

theorem cacheGet_set_self (m : List (String × CacheEntry)) (k : String) (v : CacheEntry) :
    cacheGet (cacheSet m k v) k = some v := by
  simp [cacheGet, cacheSet]

theorem cacheGet_del_self (m : List (String × CacheEntry)) (k : String) :
    cacheGet (cacheDel m k) k = none := by
  simp [cacheGet, cacheDel]

theorem applySaveHooks_analytics (u : Url) (clk : Clock) :
    (applySaveHooks u clk).analytics = u.analytics := by
  unfold applySaveHooks
  split <;> rfl

theorem applySaveHooks_shortCode (u : Url) (clk : Clock) :
    (applySaveHooks u clk).shortCode = u.shortCode := by
  unfold applySaveHooks
  split <;> rfl

theorem applySaveHooks_dailyClicks (u : Url) (clk : Clock) :
    (applySaveHooks u clk).dailyClicks = u.dailyClicks := by
  unfold applySaveHooks
  split <;> rfl

theorem applySaveHooks_inactive (u : Url) (clk : Clock) (h : u.isActive = false) :
    (applySaveHooks u clk).isActive = false := by
  unfold applySaveHooks
  split <;> simp [h]

/-- incrementClick always adds exactly one to totalClicks. -/
theorem incrementClick_totalClicks (u : Url) (cd : ClickData) (clk : Clock) :
    (incrementClick u cd clk).analytics.totalClicks = u.analytics.totalClicks + 1 := by
  unfold incrementClick
  rw [applySaveHooks_analytics]
  rfl

/-- incrementClick rewrites dailyClicks through addDailyClick. -/
theorem incrementClick_dailyClicks (u : Url) (cd : ClickData) (clk : Clock) :
    (incrementClick u cd clk).dailyClicks = addDailyClick u.dailyClicks clk.today := by
  unfold incrementClick
  rw [applySaveHooks_dailyClicks]

theorem validUrl_ne_empty {t : String} (h : validUrl t = true) : (t == "") = false := by
  rw [beq_eq_false_iff_ne]
  intro h2
  subst h2
  exact absurd h (by decide)

/-- Successful creation without a custom alias: the exact document and state
returned by createShortUrl when the target validates, the generated code has
legal length and is free in the store. -/
theorem createShortUrl_noAlias_eq (s : SysState) (target genCode : String)
    (pw : Option String) (expAt : Option Nat) (clk : Clock)
    (hvalid : validUrl target = true)
    (hlen4 : 4 ≤ genCode.length) (hlen20 : genCode.length ≤ 20)
    (hfresh : ∀ u ∈ s.db, u.shortCode ≠ genCode) :
    createShortUrl s
        { originalUrl := target, customAlias := none, password := pw, expiresAt := expAt }
        genCode clk
      = (let u : Url := applySaveHooks
           { id := s.db.length, originalUrl := target, shortCode := genCode,
             customAlias := none, password := coercePassword pw, expiresAt := expAt,
             isExpired := false, isActive := true, isPublic := true,
             analytics := { totalClicks := 0, uniqueClicks := 0, lastClickedAt := none,
                            clicksToday := 0, clicksThisWeek := 0, clicksThisMonth := 0 },
             geoStats := [], deviceStats := [], referrerStats := [],
             dailyClicks := [], createdAt := clk.now } clk
         Except.ok
           ({ db := s.db ++ [u],
              cache := cacheSet s.cache (cacheKey u.shortCode)
                { originalUrl := u.originalUrl, password := u.password,
                  isActive := u.isActive, expiresAt := u.expiresAt, idOpt := none } }, u)) := by
  have hempty := validUrl_ne_empty hvalid
  have hany : s.db.any (fun u => u.shortCode == genCode) = false := by
    rw [List.any_eq_false]
    intro u hu
    simpa using hfresh u hu
  have hd1 : decide (genCode.length < 4) = false := decide_eq_false (by omega)
  have hd2 : decide (20 < genCode.length) = false := decide_eq_false (by omega)
  unfold createShortUrl urlCreate
  simp only [hempty, hvalid, hany, hd1, hd2, Option.getD, Bool.false_eq_true, if_false,
    Bool.not_true, Bool.or_self, Bool.not_false, if_true]

theorem insertDescBy_perm (key : α → Nat) (x : α) (l : List α) :
    List.Perm (insertDescBy key x l) (x :: l) := by
  induction l with
  | nil => exact List.Perm.refl _
  | cons y ys ih =>
    unfold insertDescBy
    split
    · exact List.Perm.refl _
    · exact List.Perm.trans (List.Perm.cons y ih) (List.Perm.swap x y ys)

theorem sortDescBy_perm (key : α → Nat) (l : List α) : List.Perm (sortDescBy key l) l := by
  induction l with
  | nil => exact List.Perm.refl _
  | cons x xs ih =>
    unfold sortDescBy
    exact List.Perm.trans (insertDescBy_perm key x _) (List.Perm.cons x ih)

theorem insertDescBy_pairwise (key : α → Nat) (x : α) (l : List α)
    (h : List.Pairwise (fun a b => key b ≤ key a) l) :
    List.Pairwise (fun a b => key b ≤ key a) (insertDescBy key x l) := by
  induction l with
  | nil => simp [insertDescBy]
  | cons y ys ih =>
    rcases List.pairwise_cons.mp h with ⟨hy, hys⟩
    unfold insertDescBy
    split
    · rename_i hle
      refine List.pairwise_cons.mpr ⟨?_, h⟩
      intro b hb
      rcases List.mem_cons.mp hb with hb | hb
      · rw [hb]; exact hle
      · exact le_trans (hy b hb) hle
    · rename_i hgt
      refine List.pairwise_cons.mpr ⟨?_, ih hys⟩
      intro b hb
      rcases List.mem_cons.mp ((insertDescBy_perm key x ys).mem_iff.mp hb) with hb | hb
      · rw [hb]; exact le_of_not_le hgt
      · exact hy b hb

theorem sortDescBy_pairwise (key : α → Nat) (l : List α) :
    List.Pairwise (fun a b => key b ≤ key a) (sortDescBy key l) := by
  induction l with
  | nil => exact List.Pairwise.nil
  | cons x xs ih => exact insertDescBy_pairwise key x _ ih

theorem updateFirstBy_length (p : α → Bool) (f : α → α) (l l2 : List α)
    (h : updateFirstBy p f l = some l2) : l2.length = l.length := by
  induction l generalizing l2 with
  | nil => cases h
  | cons x xs ih =>
    unfold updateFirstBy at h
    split at h
    · cases h
      simp
    · cases hrec : updateFirstBy p f xs with
      | none => rw [hrec] at h; cases h
      | some l3 =>
        rw [hrec] at h
        cases h
        simp [ih l3 hrec]

theorem updateFirstBy_eq_none (p : α → Bool) (f : α → α) (l : List α)
    (h : ∀ e ∈ l, p e = false) : updateFirstBy p f l = none := by
  induction l with
  | nil => rfl
  | cons x xs ih =>
    unfold updateFirstBy
    rw [h x (List.mem_cons_self x xs), ih (fun e he => h e (List.mem_cons_of_mem x he))]
    rfl

theorem urlPred_false_of_nomatch {v : Url} {code : String}
    (h1 : v.shortCode ≠ code) (h2 : v.customAlias ≠ some code) :
    ((v.shortCode == code || v.customAlias == some code) && v.isActive) = false := by
  simp [h1, h2]

theorem urlPred_false_of_inactive {v : Url} {code : String} (h : v.isActive = false) :
    ((v.shortCode == code || v.customAlias == some code) && v.isActive) = false := by
  simp [h]

theorem findByCode_eq_none_of (db : List Url) (code : String)
    (h : ∀ u ∈ db, ((u.shortCode == code || u.customAlias == some code) && u.isActive) = false) :
    findByCode db code = none := by
  unfold findByCode
  rw [List.find?_eq_none.mpr (fun a ha => by rw [h a ha]; exact Bool.false_ne_true)]
  rfl

/-! ## C1 -/

/-- C1: the claim fails on the code and the code contradicts its own intent.
A link is created with password abc; while the creation-time cache entry is
live the omitted password is rejected with 401, but once the entry is gone
the cache-miss path loads the document through findByCode, whose query omits
the password field because the schema declares it select false, so the same
request (and one with a wrong password) is redirected successfully. -/
theorem password_bypass_on_cache_miss :
    (redirectToOriginal exStPw "abcd12" none exClock).result
      = RedirectResult.error 401 "Password required to access this URL"
    ∧ (redirectToOriginal { exStPw with cache := [] } "abcd12" none exClock).result
      = RedirectResult.redirect 301 "https://example.com/a"
    ∧ (redirectToOriginal { exStPw with cache := [] } "abcd12" (some "wrong") exClock).result
      = RedirectResult.redirect 301 "https://example.com/a" := by
  refine ⟨rfl, rfl, rfl⟩

/-! ## C2 -/

/-- C2: for every valid targetUrl, creating a link with no password and no
expiry and resolving the returned short code succeeds on the very first
lookup (served from the entry cached at creation) with a 301 redirect to the
original target. -/
theorem create_then_resolve_roundtrip (s : SysState) (target genCode : String)
    (clk clk2 : Clock)
    (hvalid : validUrl target = true)
    (hlen4 : 4 ≤ genCode.length) (hlen20 : genCode.length ≤ 20)
    (hfresh : ∀ u ∈ s.db, u.shortCode ≠ genCode) :
    ∃ s2 u, createShortUrl s
        { originalUrl := target, customAlias := none, password := none, expiresAt := none }
        genCode clk
      = Except.ok (s2, u)
      ∧ u.shortCode = genCode ∧ u.originalUrl = target
      ∧ (redirectToOriginal s2 genCode none clk2).result
          = RedirectResult.redirect 301 target := by
  rw [createShortUrl_noAlias_eq s target genCode none none clk hvalid hlen4 hlen20 hfresh]
  refine ⟨_, _, rfl, rfl, rfl, ?_⟩
  simp only [coercePassword, applySaveHooks, dateExceeded, redirectToOriginal,
    cacheGet_set_self, serveEntry, checkPolicy, passwordBlocks, Bool.not_true,
    if_false, if_neg, Bool.false_eq_true, not_false_eq_true]

/-- Witness for C2 at a concrete creation. -/
theorem create_then_resolve_roundtrip_witness :
    ∃ s2 u, createShortUrl emptyState
        { originalUrl := "https://example.com/a", customAlias := none,
          password := none, expiresAt := none }
        "abcd12" exClock
      = Except.ok (s2, u)
      ∧ u.shortCode = "abcd12" ∧ u.originalUrl = "https://example.com/a"
      ∧ (redirectToOriginal s2 "abcd12" none exClock).result
          = RedirectResult.redirect 301 "https://example.com/a" :=
  create_then_resolve_roundtrip emptyState "https://example.com/a" "abcd12" exClock exClock
    (by decide) (by decide) (by decide) (by intro u hu; cases hu)

/-! ## C3 counterexample -/

/-- C3 counterexample: a link created with expiresAt 500, already past at
clock 1000000, is deactivated by the pre-save expiration hook, and on the
cache-miss path (empty cache, the very lookup the claim describes) it
resolves to 404 Short URL not found, not to either Gone response. -/
theorem expired_create_cache_miss_cex :
    (createShortUrl emptyState exReqExp "abcd12" exClock).toOption.isSome = true
    ∧ exReqExp.expiresAt = some 500 ∧ 500 < exClock.now
    ∧ (redirectToOriginal { exStExp with cache := [] } "abcd12" none exClock).result
        = RedirectResult.error 404 "Short URL not found"
    ∧ (redirectToOriginal { exStExp with cache := [] } "abcd12" none exClock).result
        ≠ RedirectResult.error 404 "Short URL has expired"
    ∧ (redirectToOriginal { exStExp with cache := [] } "abcd12" none exClock).result
        ≠ RedirectResult.error 404 "Short URL is not active" := by
  refine ⟨rfl, rfl, by decide, rfl, by decide, by decide⟩

/-! ## C4 counterexample -/

/-- C4 counterexample: the store holds a document with short code dead123,
but findByCode returns none for it because the query filters isActive true;
the Store, not only the Resolver, drops inactive links. -/
theorem findByCode_inactive_cex :
    exDbInactive.any (fun u => u.shortCode == "dead123") = true
    ∧ findByCode exDbInactive "dead123" = none := by
  refine ⟨rfl, rfl⟩

/-- C4 (amended): findByCode returns only active documents matching the code
on shortCode or customAlias; because the query itself filters isActive, an
inactive link is never returned, so on the store path it is
indistinguishable from an unknown code. -/
theorem findByCode_matches_and_active (db : List Url) (code : String) :
    (∀ u, findByCode db code = some u →
      u.isActive = true ∧ (u.shortCode = code ∨ u.customAlias = some code))
    ∧ (findByCode db code = none ↔
        ∀ u ∈ db, (u.shortCode = code ∨ u.customAlias = some code) → u.isActive = false) := by
  have hpred : ∀ v : Url,
      (((v.shortCode == code || v.customAlias == some code) && v.isActive) = true)
        ↔ ((v.shortCode = code ∨ v.customAlias = some code) ∧ v.isActive = true) := by
    intro v
    simp [Bool.and_eq_true, Bool.or_eq_true]
  constructor
  · intro u hu
    unfold findByCode at hu
    cases hf : db.find? (fun v =>
        (v.shortCode == code || v.customAlias == some code) && v.isActive) with
    | none => rw [hf] at hu; cases hu
    | some w =>
      rw [hf] at hu
      have hpa := List.find?_some hf
      have hp := (hpred w).mp hpa
      have huv : stripPassword w = u := by
        simpa using hu
      rw [← huv]
      exact ⟨hp.2, hp.1⟩
  · unfold findByCode
    rw [Option.map_eq_none', List.find?_eq_none]
    constructor
    · intro h u hu hm
      cases hb : u.isActive with
      | false => rfl
      | true => exact absurd ((hpred u).mpr ⟨hm, hb⟩) (h u hu)
    · intro h u hu hcon
      have hp := (hpred u).mp hcon
      rw [h u hu hp.1] at hp
      exact Bool.false_ne_true hp.2

/-- Witness for C4 on the concrete one-document inactive store. -/
theorem findByCode_matches_and_active_witness :
    findByCode exDbInactive "dead123" = none :=
  (findByCode_matches_and_active exDbInactive "dead123").2.mpr (by decide)

/-! ## C3 (amended) -/

/-- C3 (amended): the redirect policy is evaluated in the source order
active then expiry then password, short-circuiting on the first failure; a
link created with expiresAt already in the past is deactivated by the
pre-save hook, so its first lookup served from the creation-time cache entry
fails as Short URL is not active (Gone), while the cache-miss path fails as
Short URL not found, because findByCode filters inactive documents. -/
theorem resolve_policy_order_and_expired_create :
    (∀ (e : CacheEntry) (pw : Option String) (clk : Clock), e.isActive = false →
      checkPolicy e pw clk = some { status := 404, message := "Short URL is not active" })
    ∧ (∀ (e : CacheEntry) (pw : Option String) (clk : Clock), e.isActive = true →
        dateExceeded e.expiresAt clk.now = true →
      checkPolicy e pw clk = some { status := 404, message := "Short URL has expired" })
    ∧ (∀ (e : CacheEntry) (pw : Option String) (clk : Clock), e.isActive = true →
        dateExceeded e.expiresAt clk.now = false → passwordBlocks e.password pw = true →
      checkPolicy e pw clk
        = some { status := 401, message := "Password required to access this URL" })
    ∧ (∀ (s : SysState) (target genCode : String) (t : Nat) (clk clk2 : Clock)
        (pw : Option String),
        validUrl target = true → 4 ≤ genCode.length → genCode.length ≤ 20 →
        (∀ v ∈ s.db, v.shortCode ≠ genCode ∧ v.customAlias ≠ some genCode) →
        t < clk.now →
        ∀ s2 u, createShortUrl s
            { originalUrl := target, customAlias := none, password := none,
              expiresAt := some t }
            genCode clk = Except.ok (s2, u) →
          u.isActive = false
          ∧ (redirectToOriginal s2 genCode pw clk2).result
              = RedirectResult.error 404 "Short URL is not active"
          ∧ (redirectToOriginal { s2 with cache := [] } genCode pw clk2).result
              = RedirectResult.error 404 "Short URL not found") := by
  refine ⟨?_, ?_, ?_, ?_⟩
  · intro e pw clk h
    simp [checkPolicy, h]
  · intro e pw clk h1 h2
    simp [checkPolicy, h1, h2]
  · intro e pw clk h1 h2 h3
    simp [checkPolicy, h1, h2, h3]
  · intro s target genCode t clk clk2 pw hvalid hlen4 hlen20 hfresh hpast s2 u hok
    rw [createShortUrl_noAlias_eq s target genCode none (some t) clk hvalid hlen4 hlen20
      (fun v hv => (hfresh v hv).1)] at hok
    have hdx : dateExceeded (some t) clk.now = true := by
      simp [dateExceeded, hpast]
    simp only [coercePassword, applySaveHooks, hdx, if_true] at hok
    simp only [Except.ok.injEq, Prod.mk.injEq] at hok
    obtain ⟨hs2, hu⟩ := hok
    subst hs2
    subst hu
    refine ⟨rfl, ?_, ?_⟩
    · unfold redirectToOriginal
      rw [cacheGet_set_self]
      rfl
    · have hfb : findByCode
          (s.db ++
            [{ id := s.db.length, originalUrl := target, shortCode := genCode,
               customAlias := none, password := none, expiresAt := some t,
               isExpired := true, isActive := false, isPublic := true,
               analytics := { totalClicks := 0, uniqueClicks := 0, lastClickedAt := none,
                              clicksToday := 0, clicksThisWeek := 0, clicksThisMonth := 0 },
               geoStats := [], deviceStats := [], referrerStats := [],
               dailyClicks := [], createdAt := clk.now }]) genCode = none := by
        apply findByCode_eq_none_of
        intro v hv
        rcases List.mem_append.mp hv with hv | hv
        · exact urlPred_false_of_nomatch (hfresh v hv).1 (hfresh v hv).2
        · rw [List.mem_singleton.mp hv]
          exact urlPred_false_of_inactive rfl
      unfold redirectToOriginal
      rw [show cacheGet ([] : List (String × CacheEntry)) (cacheKey genCode) = none from rfl]
      rw [hfb]

/-- Witness for C3 at the concrete expired creation. -/
theorem resolve_policy_order_and_expired_create_witness :
    exUrlExp.isActive = false
    ∧ (redirectToOriginal exStExp "abcd12" none exClock).result
        = RedirectResult.error 404 "Short URL is not active"
    ∧ (redirectToOriginal { exStExp with cache := [] } "abcd12" none exClock).result
        = RedirectResult.error 404 "Short URL not found" :=
  (resolve_policy_order_and_expired_create).2.2.2 emptyState "https://example.com/a" "abcd12"
    500 exClock exClock none (by decide) (by decide) (by decide) (by decide) (by decide)
    exStExp exUrlExp rfl

/-! ## C5 counterexample -/

/-- C5 counterexample: after disabling a link through updateUrl (and through
deleteUrl), the very next resolve returns 404 Short URL not found — not the
Gone response Short URL is not active — because the invalidated cache misses
and findByCode filters the now-inactive document away. -/
theorem disable_then_resolve_cex :
    ((updateUrl exStPlain 0 { password := none, expiresAt := none, isActive := some false }
        true exClock).toOption.map
      (fun p => (redirectToOriginal p.1 "abcd12" none exClock).result))
      = some (RedirectResult.error 404 "Short URL not found")
    ∧ ((deleteUrl exStPlain 0 true exClock).toOption.map
        (fun s => (redirectToOriginal s "abcd12" none exClock).result))
      = some (RedirectResult.error 404 "Short URL not found")
    ∧ some (RedirectResult.error 404 "Short URL not found")
      ≠ some (RedirectResult.error 404 "Short URL is not active") := by
  refine ⟨rfl, rfl, by decide⟩

/-- C5 (amended): updateUrl and deleteUrl delete the cache entry for the
document's short code before acknowledging the caller, so the acknowledged
state holds no cached entry and the very next resolve can never serve a
stale cached success; that resolve misses the cache and findByCode filters
the now-inactive document, so it answers 404 Short URL not found rather than
the Gone response. -/
theorem disable_invalidates_cache_before_ack (s : SysState) (id : Nat) (u : Url)
    (clk clk2 : Clock) (pw : Option String)
    (hfind : s.db.find? (fun v => v.id == id) = some u)
    (huniq : ∀ v ∈ s.db,
      (v.shortCode = u.shortCode ∨ v.customAlias = some u.shortCode) → v.id = id) :
    (∃ s2 u2, updateUrl s id { password := none, expiresAt := none, isActive := some false }
        true clk = Except.ok (s2, u2)
      ∧ cacheGet s2.cache (cacheKey u.shortCode) = none
      ∧ (redirectToOriginal s2 u.shortCode pw clk2).result
          = RedirectResult.error 404 "Short URL not found")
    ∧ (∃ s2, deleteUrl s id true clk = Except.ok s2
      ∧ cacheGet s2.cache (cacheKey u.shortCode) = none
      ∧ (redirectToOriginal s2 u.shortCode pw clk2).result
          = RedirectResult.error 404 "Short URL not found") := by
  have hsc : (applySaveHooks { u with isActive := false } clk).shortCode = u.shortCode := by
    rw [applySaveHooks_shortCode]
  have hact : (applySaveHooks { u with isActive := false } clk).isActive = false :=
    applySaveHooks_inactive _ _ rfl
  have hfb : findByCode (s.db.map (fun v => if v.id == id
      then applySaveHooks { u with isActive := false } clk else v)) u.shortCode = none := by
    apply findByCode_eq_none_of
    intro w hw
    rcases List.mem_map.mp hw with ⟨v, hv, hveq⟩
    by_cases hid : (v.id == id) = true
    · rw [if_pos hid] at hveq
      rw [← hveq]
      exact urlPred_false_of_inactive hact
    · rw [if_neg hid] at hveq
      subst hveq
      have hne : v.id ≠ id := by simpa using hid
      have hnm : ¬(v.shortCode = u.shortCode ∨ v.customAlias = some u.shortCode) := by
        intro hm
        exact hne (huniq v hv hm)
      push_neg at hnm
      exact urlPred_false_of_nomatch hnm.1 hnm.2
  have hcd : cacheGet (cacheDel s.cache
      (cacheKey (applySaveHooks { u with isActive := false } clk).shortCode))
      (cacheKey u.shortCode) = none := by
    rw [hsc]
    exact cacheGet_del_self _ _
  have hres : (redirectToOriginal
      { db := s.db.map (fun v => if v.id == id
          then applySaveHooks { u with isActive := false } clk else v),
        cache := cacheDel s.cache
          (cacheKey (applySaveHooks { u with isActive := false } clk).shortCode) }
      u.shortCode pw clk2).result
      = RedirectResult.error 404 "Short URL not found" := by
    unfold redirectToOriginal
    rw [hcd, hfb]
  constructor
  · have hupd : updateUrl s id
        { password := none, expiresAt := none, isActive := some false } true clk
        = Except.ok
          ({ db := s.db.map (fun v => if v.id == id
               then applySaveHooks { u with isActive := false } clk else v),
             cache := cacheDel s.cache
               (cacheKey (applySaveHooks { u with isActive := false } clk).shortCode) },
           applySaveHooks { u with isActive := false } clk) := by
      unfold updateUrl
      rw [hfind]
      rfl
    exact ⟨_, _, hupd, hcd, hres⟩
  · have hdel : deleteUrl s id true clk
        = Except.ok
          { db := s.db.map (fun v => if v.id == id
              then applySaveHooks { u with isActive := false } clk else v),
            cache := cacheDel s.cache
              (cacheKey (applySaveHooks { u with isActive := false } clk).shortCode) } := by
      unfold deleteUrl
      rw [hfind]
      rfl
    exact ⟨_, hdel, hcd, hres⟩

/-- Witness for C5 at the concrete created link (id 0, code abcd12). -/
theorem disable_invalidates_cache_before_ack_witness :
    (∃ s2 u2, updateUrl exStPlain 0
        { password := none, expiresAt := none, isActive := some false } true exClock
        = Except.ok (s2, u2)
      ∧ cacheGet s2.cache (cacheKey exUrlPlain.shortCode) = none
      ∧ (redirectToOriginal s2 exUrlPlain.shortCode none exClock).result
          = RedirectResult.error 404 "Short URL not found")
    ∧ (∃ s2, deleteUrl exStPlain 0 true exClock = Except.ok s2
      ∧ cacheGet s2.cache (cacheKey exUrlPlain.shortCode) = none
      ∧ (redirectToOriginal s2 exUrlPlain.shortCode none exClock).result
          = RedirectResult.error 404 "Short URL not found") :=
  disable_invalidates_cache_before_ack exStPlain 0 exUrlPlain exClock exClock none
    (by decide) (by decide)

/-! ## C7 -/

/-- C7: creating a link whose custom alias already occurs in the store as
another document's shortCode or customAlias fails with the alias-conflict
error before any document is created (the error return precedes Url.create,
so the store and cache are untouched). -/
theorem duplicate_alias_conflict (s : SysState) (target a : String)
    (pw : Option String) (expAt : Option Nat) (genCode : String) (clk : Clock)
    (hurl : target ≠ "")
    (hex : ∃ u ∈ s.db, u.shortCode = a ∨ u.customAlias = some a) :
    createShortUrl s
        { originalUrl := target, customAlias := some a, password := pw, expiresAt := expAt }
        genCode clk
      = Except.error { status := 400, message := "Custom alias already exists" } := by
  have hurl2 : (target == "") = false := by rwa [beq_eq_false_iff_ne]
  have hany : s.db.any (fun u => u.shortCode == a || u.customAlias == some a) = true := by
    rw [List.any_eq_true]
    obtain ⟨u, hu, h⟩ := hex
    exact ⟨u, hu, by rcases h with h | h <;> simp [h]⟩
  unfold createShortUrl
  simp [hurl2, hany]

/-- Witness for C7: the first create with alias demo succeeds; the second
one fails with the conflict error. -/
theorem duplicate_alias_conflict_witness :
    (createShortUrl emptyState exReqDemo "qqqq12" exClock).toOption.isSome = true
    ∧ createShortUrl exStDemo
        { originalUrl := "https://example.com/c", customAlias := some "demo",
          password := none, expiresAt := none }
        "rrrr12" exClock
      = Except.error { status := 400, message := "Custom alias already exists" } :=
  ⟨rfl, duplicate_alias_conflict exStDemo "https://example.com/c" "demo" none none
    "rrrr12" exClock (by decide) (by decide)⟩

/-! ## C8 counterexample -/

/-- C8 counterexample: two active public links with equal totalClicks, the
first created at 100 and the second at 200; getPopularUrls returns the older
one first, so ties are not broken by most-recent createdAt. -/
theorem popular_tie_order_cex :
    (exDbTie.map fun u => u.analytics.totalClicks) = [5, 5]
    ∧ (exDbTie.map fun u => u.createdAt) = [100, 200]
    ∧ ((getPopularUrls exDbTie 10 Timeframe.all exClock).map fun u => u.createdAt)
        = [100, 200] := by
  refine ⟨rfl, rfl, rfl⟩

/-- C8 (amended): getPopularUrls returns at most limit links, each drawn
from the store, active, public and inside the createdAt window for the
timeframe, ordered by totalClicks descending.  The source gives the sort no
secondary key, so ties keep the collection order; the claimed
most-recent-createdAt tie-break does not hold (see the counterexample). -/
theorem getPopularUrls_spec (db : List Url) (limit : Nat) (tf : Timeframe) (clk : Clock) :
    (getPopularUrls db limit tf clk).length ≤ limit
    ∧ (∀ u ∈ getPopularUrls db limit tf clk,
        u ∈ db ∧ u.isActive = true ∧ u.isPublic = true ∧ inTimeframe tf clk u = true)
    ∧ List.Pairwise (fun a b => b.analytics.totalClicks ≤ a.analytics.totalClicks)
        (getPopularUrls db limit tf clk) := by
  unfold getPopularUrls
  refine ⟨List.length_take_le _ _, ?_, ?_⟩
  · intro u hu
    have h1 := List.mem_of_mem_take hu
    have h2 := (sortDescBy_perm (fun v : Url => v.analytics.totalClicks) _).mem_iff.mp h1
    have h3 := List.mem_filter.mp h2
    have h4 := h3.2
    simp only [Bool.and_eq_true] at h4
    exact ⟨h3.1, h4.1.2, h4.1.1, h4.2⟩
  · exact List.Pairwise.sublist (List.take_sublist _ _) (sortDescBy_pairwise _ _)

/-- Witness for C8 at the concrete two-document store. -/
theorem getPopularUrls_spec_witness :
    exampleUrl 0 5 100 ∈ exDbTie ∧ (exampleUrl 0 5 100).isActive = true :=
  ⟨by decide, ((getPopularUrls_spec exDbTie 10 Timeframe.all exClock).2.1
      (exampleUrl 0 5 100) (by decide)).2.1⟩

/-! ## C6 -/

theorem addDailyClick_length (l : List DailyClick) (d : Nat) (h : l.length ≤ 30) :
    (addDailyClick l d).length ≤ 30 := by
  cases hupd : updateFirstBy (fun e => e.date == d)
      (fun e => { e with clicks := e.clicks + 1 }) l with
  | some l2 =>
    unfold addDailyClick
    rw [hupd]
    show l2.length ≤ 30
    rw [updateFirstBy_length _ _ _ _ hupd]
    exact h
  | none =>
    unfold addDailyClick
    rw [hupd]
    show (if 30 < (l ++ [({ date := d, clicks := 1 } : DailyClick)]).length then
        List.take 30 (sortDescBy (fun x => x.date)
          (l ++ [({ date := d, clicks := 1 } : DailyClick)]))
      else l ++ [({ date := d, clicks := 1 } : DailyClick)]).length ≤ 30
    split
    · exact List.length_take_le _ _
    · rename_i hle
      simp only [List.length_append, List.length_cons, List.length_nil, Nat.not_lt] at hle ⊢
      omega

theorem addDailyClick_evicts_oldest (l : List DailyClick) (d : Nat)
    (hlen : l.length = 30) (hnod : ∀ e ∈ l, e.date ≠ d) :
    ∀ e ∈ l, e ∉ addDailyClick l d → ∀ e2 ∈ l, e.date ≤ e2.date := by
  intro e he hnot e2 he2
  have hupd : updateFirstBy (fun x => x.date == d)
      (fun x => { x with clicks := x.clicks + 1 }) l = none :=
    updateFirstBy_eq_none _ _ _ (fun x hx => by simpa using hnod x hx)
  unfold addDailyClick at hnot
  rw [hupd] at hnot
  have hplen : (l ++ [({ date := d, clicks := 1 } : DailyClick)]).length = 31 := by
    simp [hlen]
  have hnot2 : e ∉ List.take 30
      (sortDescBy (fun x => x.date) (l ++ [{ date := d, clicks := 1 }])) := by
    have hred : e ∉ (if 30 < (l ++ [({ date := d, clicks := 1 } : DailyClick)]).length then
        List.take 30 (sortDescBy (fun x => x.date) (l ++ [{ date := d, clicks := 1 }]))
      else l ++ [{ date := d, clicks := 1 }]) := hnot
    rwa [if_pos (by omega)] at hred
  set pushed := l ++ [({ date := d, clicks := 1 } : DailyClick)] with hpushed
  set srt := sortDescBy (fun x => x.date) pushed with hsrt
  have hperm : List.Perm srt pushed := sortDescBy_perm (fun x => x.date) pushed
  have hsl : srt.length = 31 := by rw [hperm.length_eq]; exact hplen
  have hpw : List.Pairwise (fun a b => b.date ≤ a.date) srt :=
    sortDescBy_pairwise (fun x => x.date) pushed
  have hsplit : srt = srt.take 30 ++ srt.drop 30 := (List.take_append_drop 30 srt).symm
  have hdlen : (srt.drop 30).length = 1 := by rw [List.length_drop, hsl]
  obtain ⟨m, hm⟩ := List.length_eq_one.mp hdlen
  have hepush : e ∈ pushed := List.mem_append_left _ he
  have hesrt : e ∈ srt := hperm.mem_iff.mpr hepush
  have hedrop : e ∈ srt.drop 30 := by
    rcases List.mem_append.mp (hsplit ▸ hesrt) with h | h
    · exact absurd h hnot2
    · exact h
  have hpw2 : ∀ a ∈ srt.take 30, ∀ b ∈ srt.drop 30, b.date ≤ a.date := by
    have hx := hsplit ▸ hpw
    exact (List.pairwise_append.mp hx).2.2
  have he2push : e2 ∈ pushed := List.mem_append_left _ he2
  have he2srt : e2 ∈ srt := hperm.mem_iff.mpr he2push
  rcases List.mem_append.mp (hsplit ▸ he2srt) with h | h
  · exact hpw2 e2 h e hedrop
  · have hem : e = m := by rw [hm] at hedrop; simpa using hedrop
    have hem2 : e2 = m := by rw [hm] at h; simpa using h
    rw [hem, hem2]

/-- C6: the dailyClicks list never exceeds 30 entries — one click preserves
the cap, hence any sequence of clicks over any days preserves it — and when
the cap forces an eviction (full list, new day) the evicted entry is the
oldest by date. -/
theorem dailyClicks_cap_and_oldest_eviction :
    (∀ (u : Url) (cd : ClickData) (clk : Clock), u.dailyClicks.length ≤ 30 →
      (incrementClick u cd clk).dailyClicks.length ≤ 30)
    ∧ (∀ (l : List (ClickData × Clock)) (u : Url), u.dailyClicks.length ≤ 30 →
        (l.foldl (fun v p => incrementClick v p.1 p.2) u).dailyClicks.length ≤ 30)
    ∧ (∀ (u : Url) (cd : ClickData) (clk : Clock), u.dailyClicks.length = 30 →
        (∀ e ∈ u.dailyClicks, e.date ≠ clk.today) →
        ∀ e ∈ u.dailyClicks, e ∉ (incrementClick u cd clk).dailyClicks →
          ∀ e2 ∈ u.dailyClicks, e.date ≤ e2.date) := by
  have hstep : ∀ (u : Url) (cd : ClickData) (clk : Clock), u.dailyClicks.length ≤ 30 →
      (incrementClick u cd clk).dailyClicks.length ≤ 30 := by
    intro u cd clk h
    rw [incrementClick_dailyClicks]
    exact addDailyClick_length _ _ h
  refine ⟨hstep, ?_, ?_⟩
  · intro l
    induction l with
    | nil => intro u h; exact h
    | cons p ps ih =>
      intro u h
      exact ih _ (hstep u p.1 p.2 h)
  · intro u cd clk hlen hnod e he hnot e2 he2
    rw [incrementClick_dailyClicks] at hnot
    exact addDailyClick_evicts_oldest _ _ hlen hnod e he hnot e2 he2

/-- Witness for C6: a document with a full 30-day history, clicked on a new
day, stays at 30 entries, and the evicted oldest day (date 1) is at most the
youngest kept one (date 30). -/
theorem dailyClicks_cap_and_oldest_eviction_witness :
    (incrementClick exFullUrl exCd exClock).dailyClicks.length ≤ 30
    ∧ ({ date := 1, clicks := 1 } : DailyClick).date
        ≤ ({ date := 30, clicks := 1 } : DailyClick).date :=
  ⟨(dailyClicks_cap_and_oldest_eviction).1 exFullUrl exCd exClock (by decide),
   (dailyClicks_cap_and_oldest_eviction).2.2 exFullUrl exCd exClock
      (by decide) (by decide) { date := 1, clicks := 1 } (by decide) (by decide)
      { date := 30, clicks := 1 } (by decide)⟩

/-! ## C9 counterexample -/

/-- C9 counterexample: the analytics update is a read-modify-write of the
whole document, so the interleaving in which both concurrent resolves read
the document before either writes loses one click: totalClicks rises by 1,
not by 2. -/
theorem concurrent_clicks_lose_update_cex :
    (runClickSchedule exFreshUrl exCd exClock
        [ClickEvent.read 1, ClickEvent.read 2, ClickEvent.write 1, ClickEvent.write 2]
      ).analytics.totalClicks = exFreshUrl.analytics.totalClicks + 1
    ∧ (runClickSchedule exFreshUrl exCd exClock
        [ClickEvent.read 1, ClickEvent.read 2, ClickEvent.write 1, ClickEvent.write 2]
      ).analytics.totalClicks ≠ exFreshUrl.analytics.totalClicks + 2 := by
  refine ⟨rfl, by decide⟩

/-- Running the fully serialised schedule applies each click in turn. -/
theorem runClickSchedule_serial (n : Nat) (u : Url) (cd : ClickData) (clk : Clock) :
    (runClickSchedule u cd clk (serialSchedule n)).analytics.totalClicks
      = u.analytics.totalClicks + n := by
  suffices h : ∀ m : Nat,
      (((serialSchedule m).foldl (stepClick cd clk) (u, [])).1).analytics.totalClicks
        = u.analytics.totalClicks + m from h n
  intro m
  induction m with
  | zero => rfl
  | succ m ih =>
    rw [serialSchedule, List.foldl_append]
    rcases hst : (serialSchedule m).foldl (stepClick cd clk) (u, []) with ⟨doc, snaps⟩
    rw [hst] at ih
    simp only [List.foldl, stepClick, List.find?]
    rw [show ((m == m) = true) from by simp]
    simp only [Option.map_some', if_true]
    rw [incrementClick_totalClicks, ih]
    omega

/-- C9 (amended): click recording is a read-modify-write of the whole
document — incrementClick loads, mutates in memory and saves — not an atomic
per-field increment; a single application adds exactly one to totalClicks,
and N resolutions applied serially add exactly N (interleaved concurrent
executions can lose updates, as the counterexample shows). -/
theorem incrementClick_rmw_serial_exact :
    (∀ (u : Url) (cd : ClickData) (clk : Clock),
      (incrementClick u cd clk).analytics.totalClicks = u.analytics.totalClicks + 1)
    ∧ (∀ (n : Nat) (u : Url) (cd : ClickData) (clk : Clock),
      (runClickSchedule u cd clk (serialSchedule n)).analytics.totalClicks
        = u.analytics.totalClicks + n) :=
  ⟨incrementClick_totalClicks, runClickSchedule_serial⟩

/-! ## C10 -/

/-- C10: the cache entry written at creation has no _id, and a resolve
served from a cache entry without an _id dispatches no analytics update and
leaves the whole state — in particular every analytics field of every
document — unchanged, also after the dispatch step runs. -/
theorem creation_cache_entry_dispatches_no_click :
    (∀ (s : SysState) (req : CreateReq) (genCode : String) (clk : Clock)
        (s2 : SysState) (u : Url),
      createShortUrl s req genCode clk = Except.ok (s2, u) →
      cacheGet s2.cache (cacheKey u.shortCode)
        = some { originalUrl := u.originalUrl, password := u.password,
                 isActive := u.isActive, expiresAt := u.expiresAt, idOpt := none })
    ∧ (∀ (s : SysState) (code : String) (e : CacheEntry) (pw : Option String) (clk : Clock),
        cacheGet s.cache (cacheKey code) = some e → e.idOpt = none →
        (redirectToOriginal s code pw clk).dispatched = none
        ∧ (redirectToOriginal s code pw clk).state = s
        ∧ ∀ (cd : ClickData) (clk2 : Clock),
            runDispatch (redirectToOriginal s code pw clk).state
              (redirectToOriginal s code pw clk).dispatched cd clk2 = s) := by
  constructor
  · intro s req genCode clk s2 u hok
    unfold createShortUrl at hok
    split at hok
    · cases hok
    · split at hok
      · cases hok
      · split at hok
        · cases hok
        · simp only [Except.ok.injEq, Prod.mk.injEq] at hok
          obtain ⟨hs2, hu⟩ := hok
          subst hs2
          subst hu
          exact cacheGet_set_self _ _ _
  · intro s code e pw clk hget hid
    have hred : redirectToOriginal s code pw clk = serveEntry s e pw clk := by
      unfold redirectToOriginal
      rw [hget]
    rw [hred]
    unfold serveEntry
    cases hcp : checkPolicy e pw clk with
    | some err => exact ⟨rfl, rfl, fun cd clk2 => rfl⟩
    | none =>
      refine ⟨hid, rfl, fun cd clk2 => ?_⟩
      show runDispatch s e.idOpt cd clk2 = s
      rw [hid]
      rfl

/-- Witness for C10 at the concrete plain creation. -/
theorem creation_cache_entry_dispatches_no_click_witness :
    cacheGet exStPlain.cache (cacheKey exUrlPlain.shortCode)
      = some { originalUrl := exUrlPlain.originalUrl, password := exUrlPlain.password,
               isActive := exUrlPlain.isActive, expiresAt := exUrlPlain.expiresAt,
               idOpt := none }
    ∧ (redirectToOriginal exStPlain "abcd12" none exClock).dispatched = none
    ∧ (redirectToOriginal exStPlain "abcd12" none exClock).state = exStPlain :=
  ⟨(creation_cache_entry_dispatches_no_click).1 emptyState exReqPlain "abcd12" exClock
      exStPlain exUrlPlain rfl,
   ((creation_cache_entry_dispatches_no_click).2 exStPlain "abcd12" exEntryPlain none
      exClock rfl rfl).1,
   ((creation_cache_entry_dispatches_no_click).2 exStPlain "abcd12" exEntryPlain none
      exClock rfl rfl).2.1⟩

end Shortener
